import Mathlib

/-!
# EdTechia — verification of the validating generator chain and keyed warm pool

A shallow embedding of the question-generation core of the EdTechia repository:

* the Vertex AI fallback chain (`generateQuestionWithFallback`,
  `parseAndValidateQuestion`, `MODEL_FALLBACK_CHAIN`);
* the server-side question bank (`bankKey`, `getQueue`, `pruneStale`,
  `popFromBank`, `bankDepth`, `triggerRefillIfNeeded`, `getBankStats`);
* the orchestrating route handler (`POST /api/generate-question`).

JavaScript machine state (the module-level `Map` and `Set`) is embedded as
explicit state passed through each operation.  Timestamps (`Date.now()`)
are integers.  The outcome of one external backend invocation (transport
plus JSON extraction) is supplied as an environment parameter, so backend
nondeterminism becomes an explicit argument.
-/

namespace EdTechia

/-! ## JSON values and JavaScript dynamic-typing primitives

`parseAndValidateQuestion` receives an arbitrary value produced by
`JSON.parse`, so the embedding needs a model of parsed JSON and of the
dynamic operations the source applies to it (`typeof`, property access,
truthiness).  Object fields are as produced by `JSON.parse`: duplicate
keys have already collapsed, so lookup takes the first match. -/

inductive Json where
  | null : Json
  | bool (b : Bool) : Json
  | num (n : Int) : Json
  | str (s : String) : Json
  | arr (elems : List Json) : Json
  | obj (fields : List (String × Json)) : Json

/-- Field lookup in a parsed object. -/
def lookupField : List (String × Json) → String → Option Json
  | [], _ => none
  | (k, v) :: rest, key => if k = key then some v else lookupField rest key

/-- JavaScript property access `v[k]` on a non-null value: objects yield their
field (or `undefined` = `none`); arrays and primitives yield `undefined` for
the (non-numeric, non-builtin) keys the validator uses.  Access on `null`
throws in JavaScript and is handled separately at each access site. -/
def jsProp : Json → String → Option Json
  | .obj fields, k => lookupField fields k
  | _, _ => none

/-- JavaScript `typeof` on a possibly-undefined value (`none` = `undefined`).
Note `typeof null`, `typeof []` and `typeof {}` are all `"object"`. -/
def jsTypeof : Option Json → String
  | none => "undefined"
  | some .null => "object"
  | some (.bool _) => "boolean"
  | some (.num _) => "number"
  | some (.str _) => "string"
  | some (.arr _) => "object"
  | some (.obj _) => "object"

/-- JavaScript truthiness of a possibly-undefined value: `undefined`, `null`,
`false`, `0` and `""` are falsy, everything else truthy. -/
def jsTruthy : Option Json → Bool
  | none => false
  | some .null => false
  | some (.bool b) => b
  | some (.num n) => n != 0
  | some (.str s) => s != ""
  | some (.arr _) => true
  | some (.obj _) => true

/-- The runtime content of a TypeScript `as string` cast applied to a value the
code has already checked with `typeof v === 'string'`: extract the string (the
default branch is unreachable at every use site). -/
def asString : Option Json → String
  | some (.str s) => s
  | _ => ""

/-! ## Output data model (`src/lib/vertexai.ts`) -/

/-- `VisualContext` — the labeled visual-evidence block of a question. -/
structure VisualContext where
  type : String
  content : String
deriving DecidableEq, Repr

/-- The four labeled options `options_en`. -/
structure OptionsEn where
  A : String
  B : String
  C : String
  D : String
deriving DecidableEq, Repr

/-- `GeneratedQuestion` — the validated payload produced by a backend. -/
structure GeneratedQuestion where
  question_en : String
  visual_context : VisualContext
  options_en : OptionsEn
  correct_letter : String
  explanation_pt : String
deriving DecidableEq, Repr

/-- `GenerationResult` — a validated question plus the model that produced it. -/
structure GenerationResult where
  question : GeneratedQuestion
  modelUsed : String
deriving DecidableEq, Repr

/-! ## Validation (`parseAndValidateQuestion`, vertexai lines 108–152) -/

/-- The recognized `visual_context.type` values. -/
def recognizedVCTypes : List String := ["mermaid", "terminal", "none"]

/-- The chain `vc.type` / `['mermaid','terminal','none'].includes(vc.type as
string)`: returns the type string when the property exists, is a string and is
recognized. -/
def vcTypeMatch (vc : Option Json) : Option String :=
  match vc with
  | some v =>
      match jsProp v "type" with
      | some (.str t) => if t ∈ recognizedVCTypes then some t else none
      | _ => none
  | none => none

/-- The ternary `typeof vc.content === 'string' ? vc.content : ''`. -/
def coerceContent (c : Option Json) : String :=
  match c with
  | some (.str s) => s
  | _ => ""

/-- Lines 143–149: normalise the optional `visual_context` — safe default
`{type:'none', content:''}` when the field is falsy or its `type` is not
recognized, otherwise keep the type and coerce the content to a string. -/
def normalizeVisualContext (vc : Option Json) : VisualContext :=
  if jsTruthy vc then
    match vcTypeMatch vc with
    | some t => ⟨t, coerceContent (jsProp (vc.getD .null) "content")⟩
    | none => ⟨"none", ""⟩
  else ⟨"none", ""⟩

/-- `parseAndValidateQuestion` (lines 108–152), from the point where
`JSON.parse` has run: `none` stands for unparseable text (`JSON.parse` threw).
Property access on a parsed `null` throws a `TypeError` in JavaScript, which
the caller's `catch` treats like any other failure; those branches are
explicit `.error`s here. -/
def parseAndValidateQuestion (parsed : Option Json) : Except String GeneratedQuestion :=
  match parsed with
  | none => .error "Gemini returned non-JSON response"
  | some .null => .error "TypeError: cannot read properties of null"
  | some q =>
    let qe := jsProp q "question_en"
    let oe := jsProp q "options_en"
    let cl := jsProp q "correct_letter"
    let ep := jsProp q "explanation_pt"
    if !(jsTypeof qe == "string" && jsTypeof oe == "object"
          && jsTypeof cl == "string" && jsTypeof ep == "string") then
      .error "Gemini JSON is missing required fields"
    else
      match oe.getD .null with
      | .null => .error "TypeError: cannot read properties of null"
      | opts =>
        let a := jsProp opts "A"
        let b := jsProp opts "B"
        let c := jsProp opts "C"
        let d := jsProp opts "D"
        if !(jsTypeof a == "string" && jsTypeof b == "string"
              && jsTypeof c == "string" && jsTypeof d == "string") then
          .error "Gemini options_en is missing A/B/C/D keys"
        else if !(["A", "B", "C", "D"].contains (asString cl)) then
          .error "Gemini correct_letter is invalid"
        else
          .ok { question_en := asString qe
              , visual_context := normalizeVisualContext (jsProp q "visual_context")
              , options_en := ⟨asString a, asString b, asString c, asString d⟩
              , correct_letter := asString cl
              , explanation_pt := asString ep }

/-! ## Fallback chain (`generateQuestionWithFallback`, vertexai lines 55–102)

A backend's behaviour over one call — transport, raw-text extraction,
parsing and validation together — is an environment function
`backend : String → Except String GeneratedQuestion` from model id to
outcome, since the loop body treats a transport error and a validation
error identically (both are caught and advance the chain). -/

/-- `MODEL_FALLBACK_CHAIN` (lines 15–20), with the environment-variable
defaults. -/
def MODEL_FALLBACK_CHAIN : List String :=
  ["gemini-2.5-pro", "gemini-2.0-flash", "gemini-1.5-pro-002", "gemini-1.5-flash-002"]

/-- The `for … of MODEL_FALLBACK_CHAIN` loop with its `lastError`
accumulator: first success wins, otherwise the aggregate error names the last
underlying cause (`lastError?.message`, which interpolates as `undefined` when
no model was tried). -/
def runFallbackChain (backend : String → Except String GeneratedQuestion) :
    List String → Option String → Except String GenerationResult
  | [], lastError =>
      .error ("All models in the fallback chain failed. Last error: "
        ++ lastError.getD "undefined")
  | modelId :: rest, _ =>
      match backend modelId with
      | .ok q => .ok ⟨q, modelId⟩
      | .error e => runFallbackChain backend rest (some e)

/-- `generateQuestionWithFallback` over the default chain. -/
def generateQuestionWithFallback (backend : String → Except String GeneratedQuestion) :
    Except String GenerationResult :=
  runFallbackChain backend MODEL_FALLBACK_CHAIN none

/-- Observation of the same loop: the list of model ids actually invoked, in
order (the loop stops invoking after the first success). -/
def chainInvocations (backend : String → Except String GeneratedQuestion) :
    List String → List String
  | [] => []
  | modelId :: rest =>
      match backend modelId with
      | .ok _ => [modelId]
      | .error _ => modelId :: chainInvocations backend rest

/-! ## Question bank (`src/lib/questionBank.ts`)

The module-level `Map<string, BankQuestion[]>` is embedded as an association
list threaded through each operation; `Map.set` updates in place or appends,
exactly like the JavaScript `Map`.  The module-level `Set<string>` of
refilling keys is a duplicate-free list with `Set.add` / `Set.delete`. -/

/-- `BankQuestion` — a pooled question with provenance and creation time. -/
structure BankQuestion where
  question : GeneratedQuestion
  modelUsed : String
  generatedAt : Int
deriving DecidableEq, Repr

def MIN_BANK : Nat := 10

def MAX_BANK : Nat := 20

/-- Questions older than 4 hours are discarded (stale). -/
def MAX_AGE_MS : Int := 4 * 60 * 60 * 1000

/-- The bank: key → queue of ready questions. -/
def Bank : Type := List (String × List BankQuestion)

/-- `bank.get(key)` — `none` when the key is absent. -/
def getQ : Bank → String → Option (List BankQuestion)
  | [], _ => none
  | (k, q) :: rest, key => if k = key then some q else getQ rest key

/-- `bank.set(key, v)` — update in place when present, append when absent. -/
def setQ : Bank → String → List BankQuestion → Bank
  | [], key, v => [(key, v)]
  | (k, q) :: rest, key, v =>
      if k = key then (key, v) :: rest else (k, q) :: setQ rest key v

/-- `Set.add` on the refilling guard (idempotent, like a JS `Set`). -/
def setAdd (s : List String) (key : String) : List String :=
  if key ∈ s then s else key :: s

/-- `Set.delete` on the refilling guard. -/
def setDelete (s : List String) (key : String) : List String :=
  s.filter (fun k => k ≠ key)

/-- `bankKey` (lines 356–358): join the three components with `:`. -/
def bankKey (examId topicId difficulty : String) : String :=
  examId ++ ":" ++ topicId ++ ":" ++ difficulty

/-- `getQueue` (lines 360–363): ensure the key maps to a queue (inserting an
empty one on first reference) and return it together with the updated bank. -/
def getQueue (b : Bank) (key : String) : List BankQuestion × Bank :=
  match getQ b key with
  | some q => (q, b)
  | none => ([], setQ b key [])

/-- A question is fresh when its age is under `MAX_AGE_MS`
(`(now - q.generatedAt) < MAX_AGE_MS`). -/
def isFresh (now : Int) (q : BankQuestion) : Bool :=
  now - q.generatedAt < MAX_AGE_MS

/-- `pruneStale` (lines 365–373): filter the key's queue to fresh questions,
writing back only when something was removed. -/
def pruneStale (key : String) (now : Int) (b : Bank) : Bank :=
  let qb := getQueue b key
  let fresh := qb.1.filter (isFresh now)
  if fresh.length ≠ qb.1.length then setQ qb.2 key fresh else qb.2

/-- `popFromBank` (lines 376–388): prune, then `shift()` the head of the
queue; `none` when the queue is empty. -/
def popFromBank (examId topicId difficulty : String) (now : Int) (b : Bank) :
    Option BankQuestion × Bank :=
  let key := bankKey examId topicId difficulty
  let qb := getQueue (pruneStale key now b) key
  match qb.1 with
  | [] => (none, qb.2)
  | item :: rest => (some item, setQ qb.2 key rest)

/-- `bankDepth` (lines 391–395): prune, then report the queue length. -/
def bankDepth (examId topicId difficulty : String) (now : Int) (b : Bank) :
    Nat × Bank :=
  let key := bankKey examId topicId difficulty
  let qb := getQueue (pruneStale key now b) key
  (qb.1.length, qb.2)

/-- `getBankStats` (lines 445–451): raw queue length for every known key, with
no pruning and no state change (the `forEach` only reads). -/
def getBankStats (b : Bank) : List (String × Nat) :=
  b.map (fun e => (e.1, e.2.length))

/-- Bank map plus the refilling guard set — the module's two pieces of shared
mutable state. -/
structure BankState where
  bank : Bank
  refilling : List String

/-- The synchronous prefix of `triggerRefillIfNeeded` (lines 402–418): prune,
read the queue, and either return without spawning (depth at least `MIN_BANK`,
or the key already marked in-flight) or mark the key and spawn a round whose
budget (`needed`) is returned. -/
def triggerRefillCheck (examId topicId difficulty : String) (now : Int)
    (s : BankState) : BankState × Option Nat :=
  let key := bankKey examId topicId difficulty
  let qb := getQueue (pruneStale key now s.bank) key
  if MIN_BANK ≤ qb.1.length then (⟨qb.2, s.refilling⟩, none)
  else if key ∈ s.refilling then (⟨qb.2, s.refilling⟩, none)
  else (⟨qb.2, setAdd s.refilling key⟩, some (MIN_BANK - qb.1.length))

/-- The `while (generated < needed)` loop of the background round (lines
423–436), run to completion with the outcomes of the successive
`generateQuestionWithFallback` calls supplied as a stream (`gens`): each
iteration re-reads the queue, stops when it has reached `MAX_BANK`, appends on
success and breaks on the first failure.  `gens` running dry models the stream
ending; the real loop performs at most `needed - generated` further calls. -/
def refillLoop (key : String) (now : Int) :
    List (Except String GenerationResult) → Nat → Nat → Bank → Bank
  | [], needed, generated, b =>
      if generated < needed then (getQueue b key).2 else b
  | g :: rest, needed, generated, b =>
      if generated < needed then
        let qb := getQueue b key
        if MAX_BANK ≤ qb.1.length then qb.2
        else
          match g with
          | .ok r =>
              refillLoop key now rest needed (generated + 1)
                (setQ qb.2 key (qb.1 ++ [⟨r.question, r.modelUsed, now⟩]))
          | .error _ => qb.2
      else b

/-- The whole fire-and-forget round (lines 420–441): `buildPrompts()` runs
first inside the `try` (`promptsOk = false` models the factory throwing, in
which case the loop never runs), then the loop; the `finally` clause deletes
the key from the refilling guard unconditionally. -/
def refillRound (key : String) (now : Int) (promptsOk : Bool)
    (gens : List (Except String GenerationResult)) (needed : Nat)
    (s : BankState) : BankState :=
  let b := if promptsOk then refillLoop key now gens needed 0 s.bank else s.bank
  ⟨b, setDelete s.refilling key⟩

/-! ## Request orchestrator (`POST /api/generate-question`, route lines 252–320)

The core of the handler after input validation: try the bank, fall back to
one synchronous `generateQuestionWithFallback` call (its outcome supplied as
the environment parameter `gen`), and trigger the background refill on every
non-error path.  `genCalls` counts synchronous generator-chain invocations and
`refillInvoked` records whether `triggerRefillIfNeeded` was reached. -/

/-- Outcome of one orchestrated request: the HTTP-level result (`.error`
carries status code and detail, `.ok` carries the served question and the
`from_bank` flag), the shared state after the synchronous part of the
handler, the spawned refill round's budget if one was spawned, and the two
observation counters. -/
structure ServeResult where
  response : Except (Nat × String) (BankQuestion × Bool)
  state : BankState
  spawned : Option Nat
  genCalls : Nat
  refillInvoked : Bool

/-- The handler core: `popFromBank`; on a hit serve from the bank; on a miss
run the generator chain once (outcome `gen`), answering 502 on failure before
the refill trigger is reached; then `triggerRefillIfNeeded` on both success
paths. -/
def serve (examId topicId difficulty : String) (now : Int)
    (gen : Except String GenerationResult) (s : BankState) : ServeResult :=
  let pb := popFromBank examId topicId difficulty now s.bank
  match pb.1 with
  | some q =>
      let ts := triggerRefillCheck examId topicId difficulty now ⟨pb.2, s.refilling⟩
      ⟨.ok (q, true), ts.1, ts.2, 0, true⟩
  | none =>
      match gen with
      | .ok r =>
          let item : BankQuestion := ⟨r.question, r.modelUsed, now⟩
          let ts := triggerRefillCheck examId topicId difficulty now ⟨pb.2, s.refilling⟩
          ⟨.ok (item, false), ts.1, ts.2, 1, true⟩
      | .error msg =>
          ⟨.error (502, msg), ⟨pb.2, s.refilling⟩, none, 1, false⟩

/-! ## Interleaving semantics of the pool

Background rounds run concurrently with pops and triggers.  The shared state
they interleave over is the bank, the guard set, and the set of active rounds
(each with its remaining `needed` budget).  Each constructor of `PoolOp` is
one atomic critical section of the source: a pop, a depth probe, the
synchronous part of a trigger, one iteration of an active round's loop, or a
round's `finally` clause.  Guards that fail make the op a no-op, mirroring
the early `return` / `break` of the source. -/

/-- System state for the interleaved semantics. -/
structure SysState where
  bank : Bank
  refilling : List String
  rounds : List (String × Nat)

/-- Remaining budget of the active round for `key`, if any. -/
def roundBudget : List (String × Nat) → String → Option Nat
  | [], _ => none
  | (k, n) :: rest, key => if k = key then some n else roundBudget rest key

/-- Replace the budget of `key`'s round. -/
def setRoundBudget : List (String × Nat) → String → Nat → List (String × Nat)
  | [], _, _ => []
  | (k, n) :: rest, key, m =>
      if k = key then (key, m) :: rest else (k, n) :: setRoundBudget rest key m

/-- One atomic pool event. -/
inductive PoolOp where
  | popEv (examId topicId difficulty : String) (now : Int)
  | depthEv (examId topicId difficulty : String) (now : Int)
  | triggerEv (examId topicId difficulty : String) (now : Int)
  | pushEv (key : String) (item : BankQuestion)
  | endEv (key : String)

/-- Small-step interpretation of one pool event. -/
def applyOp (s : SysState) : PoolOp → SysState
  | .popEv e t d now => { s with bank := (popFromBank e t d now s.bank).2 }
  | .depthEv e t d now => { s with bank := (bankDepth e t d now s.bank).2 }
  | .triggerEv e t d now =>
      let ts := triggerRefillCheck e t d now ⟨s.bank, s.refilling⟩
      match ts.2 with
      | none => { s with bank := ts.1.bank, refilling := ts.1.refilling }
      | some needed =>
          ⟨ts.1.bank, ts.1.refilling, (bankKey e t d, needed) :: s.rounds⟩
  | .pushEv key item =>
      match roundBudget s.rounds key with
      | none => s
      | some 0 => s
      | some (budget + 1) =>
          let qb := getQueue s.bank key
          if MAX_BANK ≤ qb.1.length then s
          else
            ⟨setQ qb.2 key (qb.1 ++ [item]), s.refilling,
              setRoundBudget s.rounds key budget⟩
  | .endEv key =>
      match roundBudget s.rounds key with
      | none => s
      | some _ =>
          ⟨s.bank, setDelete s.refilling key,
            s.rounds.filter (fun r => r.1 ≠ key)⟩

/-- Run a sequence of pool events. -/
def applyOps (s : SysState) : List PoolOp → SysState
  | [] => s
  | op :: rest => applyOps (applyOp s op) rest

/-- No queue exceeds the hard cap. -/
def QueuesBounded (s : SysState) : Prop :=
  ∀ k q, getQ s.bank k = some q → q.length ≤ MAX_BANK

/-- Single-flight: active rounds have pairwise distinct keys, and a key has an
active round exactly when it is in the refilling guard set. -/
def SingleFlight (s : SysState) : Prop :=
  (s.rounds.map Prod.fst).Nodup ∧
    ∀ k, k ∈ s.rounds.map Prod.fst ↔ k ∈ s.refilling

/-! ## Basic lemmas about the embedded map and set operations -/

/-- The queue a key currently maps to, reading `none` as empty. -/
def queueOf (b : Bank) (k : String) : List BankQuestion :=
  (getQ b k).getD []

/-- Queue-length boundedness of a bank alone. -/
def BankBounded (b : Bank) : Prop :=
  ∀ k q, getQ b k = some q → q.length ≤ MAX_BANK

/-! ## Validation-acceptance predicate and concrete instances

`acceptsPayload` is written from the spec's wording (as amended) to be
compared with the source's `parseAndValidateQuestion`; the remaining
definitions are concrete banks, payloads and backend environments used to
instantiate the theorems. -/

/-- Whether a validation outcome is a success. -/
def isOk : Except String GeneratedQuestion → Bool
  | .ok _ => true
  | .error _ => false

/-- A parsed JSON value other than `null`. -/
def notNull : Json → Bool
  | .null => false
  | _ => true

/-- Modelled from the spec (amended): the acceptance condition of
`parseAndValidateQuestion` as one flat predicate — parseable, non-null, the
four required fields present with the right primitive types, a non-null
options value carrying the four labels `A`–`D` with string values (extra
labels are not excluded), and a valid correct letter. -/
def acceptsPayload : Option Json → Bool
  | none => false
  | some .null => false
  | some q =>
      jsTypeof (jsProp q "question_en") == "string"
      && jsTypeof (jsProp q "options_en") == "object"
      && jsTypeof (jsProp q "correct_letter") == "string"
      && jsTypeof (jsProp q "explanation_pt") == "string"
      && notNull ((jsProp q "options_en").getD .null)
      && jsTypeof (jsProp ((jsProp q "options_en").getD .null) "A") == "string"
      && jsTypeof (jsProp ((jsProp q "options_en").getD .null) "B") == "string"
      && jsTypeof (jsProp ((jsProp q "options_en").getD .null) "C") == "string"
      && jsTypeof (jsProp ((jsProp q "options_en").getD .null) "D") == "string"
      && ["A", "B", "C", "D"].contains (asString (jsProp q "correct_letter"))

/-- Five labeled options — one more than the schema's four. -/
def fiveOptions : List (String × Json) :=
  [("A", .str "a"), ("B", .str "b"), ("C", .str "c"), ("D", .str "d"),
    ("E", .str "e")]

/-- A payload whose options object carries the five labels `A`–`E`. -/
def fiveOptionsPayload : Json :=
  .obj [("question_en", .str "Which service?"),
        ("options_en", .obj fiveOptions),
        ("correct_letter", .str "A"),
        ("explanation_pt", .str "pt")]

/-- A sample question used by concrete states. -/
def qDemo : GeneratedQuestion :=
  ⟨"q", ⟨"none", ""⟩, ⟨"a", "b", "c", "d"⟩, "A", "e"⟩

/-- A bank holding one question generated at time 0 for one key. -/
def staleBank : Bank :=
  [("clf:t1:easy", [⟨qDemo, "gemini-2.5-pro", 0⟩])]

/-- A bank with ten fresh questions for one key. -/
def fullBank : Bank :=
  [("clf:t1:easy", List.replicate 10 ⟨qDemo, "gemini-2.5-pro", 0⟩)]

/-- A bank whose only queue already holds `MAX_BANK` questions. -/
def maxedBank : Bank :=
  [("clf:t1:easy", List.replicate 20 ⟨qDemo, "gemini-2.5-pro", 0⟩)]

/-- A bank whose queue is ordered by creation time. -/
def sortedBank : Bank :=
  [("clf:t1:easy",
    [⟨qDemo, "gemini-2.5-pro", 0⟩, ⟨qDemo, "gemini-2.5-pro", 5⟩])]

/-- A backend environment where only the primary fails. -/
def demoBackend : String → Except String GeneratedQuestion :=
  fun modelId =>
    if modelId = "gemini-2.5-pro" then .error "503 quota exceeded"
    else .ok qDemo

/-! ## Lemmas about the embedded map and set operations -/

/-- `getQueue` of a present key returns the bank unchanged. -/
theorem getQueue_of_present {b : Bank} {key : String} {q : List BankQuestion}
    (h : getQ b key = some q) : getQueue b key = (q, b) := by
  unfold getQueue
  rw [h]

theorem getQ_setQ_self (b : Bank) (key : String) (v : List BankQuestion) :
    getQ (setQ b key v) key = some v := by
  induction b with
  | nil => simp [setQ, getQ]
  | cons e rest ih =>
      obtain ⟨k, q⟩ := e
      by_cases h : k = key <;> simp [setQ, getQ, h, ih]

theorem getQ_setQ_ne (b : Bank) {key k' : String} (v : List BankQuestion)
    (h : k' ≠ key) : getQ (setQ b key v) k' = getQ b k' := by
  induction b with
  | nil => simp [setQ, getQ, Ne.symm h]
  | cons e rest ih =>
      obtain ⟨k, q⟩ := e
      by_cases hk : k = key
      · subst hk
        simp [setQ, getQ, Ne.symm h, ih]
      · simp [setQ, getQ, hk, ih]

theorem mem_setDelete {s : List String} {key k : String} :
    k ∈ setDelete s key ↔ k ∈ s ∧ k ≠ key := by
  simp [setDelete]

theorem not_mem_setDelete_self (s : List String) (key : String) :
    key ∉ setDelete s key := by
  simp [mem_setDelete]

theorem mem_setAdd {s : List String} {key k : String} :
    k ∈ setAdd s key ↔ k ∈ s ∨ k = key := by
  unfold setAdd
  by_cases h : key ∈ s
  · simp only [if_pos h]
    constructor
    · exact Or.inl
    · rintro (hk | rfl) <;> assumption
  · simp only [if_neg h, List.mem_cons]
    tauto

/-- A filter whose result has the same length as its input is the input. -/
theorem filter_eq_self_of_length_eq {α : Type} {p : α → Bool} {l : List α}
    (h : (l.filter p).length = l.length) : l.filter p = l :=
  (List.filter_sublist l).eq_of_length h

/-- After `pruneStale`, the key maps exactly to the fresh part of its former
queue (the key is present afterwards even if it was not before). -/
theorem getQ_pruneStale_self (key : String) (now : Int) (b : Bank) :
    getQ (pruneStale key now b) key = some ((queueOf b key).filter (isFresh now)) := by
  unfold pruneStale
  cases h : getQ b key with
  | some q =>
      rw [getQueue_of_present h]
      simp only [queueOf, h, Option.getD_some]
      by_cases hl : (q.filter (isFresh now)).length = q.length
      · rw [if_neg (not_not.mpr hl), h, filter_eq_self_of_length_eq hl]
      · rw [if_pos hl, getQ_setQ_self]
  | none =>
      simp only [getQueue, h, queueOf, Option.getD_none, List.filter_nil]
      rw [if_neg (by simp), getQ_setQ_self]

/-- `pruneStale` leaves every other key untouched. -/
theorem getQ_pruneStale_ne (key : String) (now : Int) (b : Bank) {k' : String}
    (hk : k' ≠ key) : getQ (pruneStale key now b) k' = getQ b k' := by
  unfold pruneStale
  cases h : getQ b key with
  | some q =>
      rw [getQueue_of_present h]
      by_cases hl : (q.filter (isFresh now)).length = q.length
      · rw [if_neg (not_not.mpr hl)]
      · rw [if_pos hl]
        exact getQ_setQ_ne _ _ hk
  | none =>
      simp only [getQueue, h]
      rw [if_neg (by simp), getQ_setQ_ne _ _ hk]

/-- What `popFromBank` returns: the head of the fresh part of the queue. -/
theorem popFromBank_fst (e t d : String) (now : Int) (b : Bank) :
    (popFromBank e t d now b).1
      = ((queueOf b (bankKey e t d)).filter (isFresh now)).head? := by
  simp only [popFromBank,
    getQueue_of_present (getQ_pruneStale_self (bankKey e t d) now b)]
  cases hf : (queueOf b (bankKey e t d)).filter (isFresh now) with
  | nil => simp [hf]
  | cons item rest => simp [hf]

/-- After `popFromBank`, the key maps to the tail of the fresh part. -/
theorem getQ_popFromBank_self (e t d : String) (now : Int) (b : Bank) :
    getQ (popFromBank e t d now b).2 (bankKey e t d)
      = some (((queueOf b (bankKey e t d)).filter (isFresh now)).tail) := by
  simp only [popFromBank,
    getQueue_of_present (getQ_pruneStale_self (bankKey e t d) now b)]
  cases hf : (queueOf b (bankKey e t d)).filter (isFresh now) with
  | nil =>
      simpa [hf] using getQ_pruneStale_self (bankKey e t d) now b
  | cons item rest => simp [hf, getQ_setQ_self]

/-- `popFromBank` leaves every other key untouched. -/
theorem getQ_popFromBank_ne (e t d : String) (now : Int) (b : Bank) {k' : String}
    (hk : k' ≠ bankKey e t d) :
    getQ (popFromBank e t d now b).2 k' = getQ b k' := by
  simp only [popFromBank,
    getQueue_of_present (getQ_pruneStale_self (bankKey e t d) now b)]
  cases hf : (queueOf b (bankKey e t d)).filter (isFresh now) with
  | nil => simpa [hf] using getQ_pruneStale_ne (bankKey e t d) now b hk
  | cons item rest =>
      simpa [hf, getQ_setQ_ne _ _ hk]
        using getQ_pruneStale_ne (bankKey e t d) now b hk

/-- `bankDepth` reports the length of the fresh part of the queue. -/
theorem bankDepth_fst (e t d : String) (now : Int) (b : Bank) :
    (bankDepth e t d now b).1
      = ((queueOf b (bankKey e t d)).filter (isFresh now)).length := by
  simp only [bankDepth,
    getQueue_of_present (getQ_pruneStale_self (bankKey e t d) now b)]

/-- `bankDepth`'s only state effect is the pruning itself. -/
theorem bankDepth_snd (e t d : String) (now : Int) (b : Bank) :
    (bankDepth e t d now b).2 = pruneStale (bankKey e t d) now b := by
  simp only [bankDepth,
    getQueue_of_present (getQ_pruneStale_self (bankKey e t d) now b)]

/-- `triggerRefillCheck` when the pruned depth has reached `MIN_BANK`:
no spawn, guard set untouched, bank only pruned. -/
theorem triggerRefillCheck_noop_of_depth (e t d : String) (now : Int)
    (s : BankState)
    (h : MIN_BANK ≤ ((queueOf s.bank (bankKey e t d)).filter (isFresh now)).length) :
    triggerRefillCheck e t d now s
      = (⟨pruneStale (bankKey e t d) now s.bank, s.refilling⟩, none) := by
  simp only [triggerRefillCheck,
    getQueue_of_present (getQ_pruneStale_self (bankKey e t d) now s.bank)]
  rw [if_pos h]

/-- `triggerRefillCheck` when the key is already marked in-flight:
no spawn, guard set untouched, bank only pruned. -/
theorem triggerRefillCheck_noop_of_refilling (e t d : String) (now : Int)
    (s : BankState) (h : bankKey e t d ∈ s.refilling) :
    triggerRefillCheck e t d now s
      = (⟨pruneStale (bankKey e t d) now s.bank, s.refilling⟩, none) := by
  simp only [triggerRefillCheck,
    getQueue_of_present (getQ_pruneStale_self (bankKey e t d) now s.bank)]
  by_cases hd : MIN_BANK ≤ ((queueOf s.bank (bankKey e t d)).filter (isFresh now)).length
  · rw [if_pos hd]
  · rw [if_neg hd, if_pos h]

/-- `triggerRefillCheck` when the pruned depth is low and no round is in
flight: the key is marked and a round with budget `MIN_BANK - depth` spawns. -/
theorem triggerRefillCheck_spawn (e t d : String) (now : Int) (s : BankState)
    (hd : ((queueOf s.bank (bankKey e t d)).filter (isFresh now)).length < MIN_BANK)
    (hr : bankKey e t d ∉ s.refilling) :
    triggerRefillCheck e t d now s
      = (⟨pruneStale (bankKey e t d) now s.bank, setAdd s.refilling (bankKey e t d)⟩,
          some (MIN_BANK - ((queueOf s.bank (bankKey e t d)).filter (isFresh now)).length)) := by
  simp only [triggerRefillCheck,
    getQueue_of_present (getQ_pruneStale_self (bankKey e t d) now s.bank)]
  rw [if_neg (not_le.mpr hd), if_neg hr]

theorem getQueue_fst (b : Bank) (key : String) :
    (getQueue b key).1 = queueOf b key := by
  cases h : getQ b key <;> simp [getQueue, queueOf, h]

theorem getQ_getQueue_snd_self (b : Bank) (key : String) :
    getQ (getQueue b key).2 key = some (queueOf b key) := by
  cases h : getQ b key <;> simp [getQueue, queueOf, h, getQ_setQ_self]

theorem getQ_getQueue_snd_ne (b : Bank) (key : String) {k' : String}
    (hk : k' ≠ key) : getQ (getQueue b key).2 k' = getQ b k' := by
  cases h : getQ b key <;> simp [getQueue, h, getQ_setQ_ne _ _ hk]

/-- The queue of the ensured bank at the ensured key. -/
theorem queueOf_getQueue_snd (b : Bank) (key : String) :
    queueOf (getQueue b key).2 key = queueOf b key := by
  rw [queueOf, getQ_getQueue_snd_self]
  rfl

theorem queueOf_setQ_self (b : Bank) (key : String) (v : List BankQuestion) :
    queueOf (setQ b key v) key = v := by
  rw [queueOf, getQ_setQ_self]
  rfl

/-- The bound each queue obeys, reading an absent key as empty. -/
theorem queueOf_length_le_of_bounded {b : Bank} {k : String}
    (h : ∀ k' q, getQ b k' = some q → q.length ≤ MAX_BANK) :
    (queueOf b k).length ≤ MAX_BANK := by
  cases hq : getQ b k with
  | some q => simpa [queueOf, hq] using h k q hq
  | none => simp [queueOf, hq]

/-- A round's loop is a no-op once the queue has reached `MAX_BANK`. -/
theorem refillLoop_of_maxed (key : String) (now : Int)
    (gens : List (Except String GenerationResult)) (needed generated : Nat)
    {b : Bank} (h : MAX_BANK ≤ (queueOf b key).length) :
    refillLoop key now gens needed generated b = b := by
  have hq : getQ b key = some (queueOf b key) := by
    cases hg : getQ b key with
    | some q => simp [queueOf, hg]
    | none => simp [queueOf, hg, MAX_BANK] at h
  have hsnd : (getQueue b key).2 = b := by rw [getQueue_of_present hq]
  cases gens with
  | nil =>
      simp only [refillLoop, hsnd, ite_self]
  | cons g rest =>
      simp only [refillLoop, getQueue_fst, if_pos h, hsnd, ite_self]

/-- The loop appends at most `needed - generated` items to the key's queue. -/
theorem refillLoop_length_le (key : String) (now : Int) :
    ∀ (gens : List (Except String GenerationResult)) (needed generated : Nat)
      (b : Bank),
      (queueOf (refillLoop key now gens needed generated b) key).length
        ≤ (queueOf b key).length + (needed - generated) := by
  intro gens
  induction gens with
  | nil =>
      intro needed generated b
      simp only [refillLoop]
      by_cases hlt : generated < needed
      · rw [if_pos hlt, queueOf_getQueue_snd]
        exact Nat.le_add_right _ _
      · rw [if_neg hlt]
        exact Nat.le_add_right _ _
  | cons g rest ih =>
      intro needed generated b
      simp only [refillLoop]
      by_cases hlt : generated < needed
      · rw [if_pos hlt]
        by_cases hm : MAX_BANK ≤ ((getQueue b key).1).length
        · rw [if_pos hm, queueOf_getQueue_snd]
          exact Nat.le_add_right _ _
        · rw [if_neg hm]
          cases g with
          | error e =>
              rw [queueOf_getQueue_snd]
              exact Nat.le_add_right _ _
          | ok r =>
              refine le_trans (ih needed (generated + 1) _) ?_
              rw [queueOf_setQ_self, getQueue_fst]
              simp only [List.length_append, List.length_cons, List.length_nil]
              omega
      · rw [if_neg hlt]
        exact Nat.le_add_right _ _

/-- The loop never pushes a queue past `MAX_BANK`. -/
theorem refillLoop_bounded (key : String) (now : Int) :
    ∀ (gens : List (Except String GenerationResult)) (needed generated : Nat)
      (b : Bank), (queueOf b key).length ≤ MAX_BANK →
      (queueOf (refillLoop key now gens needed generated b) key).length ≤ MAX_BANK := by
  intro gens
  induction gens with
  | nil =>
      intro needed generated b hb
      simp only [refillLoop]
      by_cases hlt : generated < needed
      · rwa [if_pos hlt, queueOf_getQueue_snd]
      · rwa [if_neg hlt]
  | cons g rest ih =>
      intro needed generated b hb
      simp only [refillLoop]
      by_cases hlt : generated < needed
      · rw [if_pos hlt]
        by_cases hm : MAX_BANK ≤ ((getQueue b key).1).length
        · rwa [if_pos hm, queueOf_getQueue_snd]
        · rw [if_neg hm]
          cases g with
          | error e => rwa [queueOf_getQueue_snd]
          | ok r =>
              refine ih needed (generated + 1) _ ?_
              rw [queueOf_setQ_self]
              rw [getQueue_fst] at hm ⊢
              simp only [List.length_append, List.length_cons, List.length_nil]
              omega
      · rwa [if_neg hlt]

/-- The loop touches no key other than its own. -/
theorem refillLoop_other_keys (key : String) (now : Int) :
    ∀ (gens : List (Except String GenerationResult)) (needed generated : Nat)
      (b : Bank) {k' : String}, k' ≠ key →
      getQ (refillLoop key now gens needed generated b) k' = getQ b k' := by
  intro gens
  induction gens with
  | nil =>
      intro needed generated b k' hk
      simp only [refillLoop]
      by_cases hlt : generated < needed
      · rw [if_pos hlt, getQ_getQueue_snd_ne _ _ hk]
      · rw [if_neg hlt]
  | cons g rest ih =>
      intro needed generated b k' hk
      simp only [refillLoop]
      by_cases hlt : generated < needed
      · rw [if_pos hlt]
        by_cases hm : MAX_BANK ≤ ((getQueue b key).1).length
        · rw [if_pos hm, getQ_getQueue_snd_ne _ _ hk]
        · rw [if_neg hm]
          cases g with
          | error e => rw [getQ_getQueue_snd_ne _ _ hk]
          | ok r =>
              rw [ih needed (generated + 1) _ hk, getQ_setQ_ne _ _ hk,
                getQ_getQueue_snd_ne _ _ hk]
      · rw [if_neg hlt]

/-! ## Invariance of the interleaved semantics -/

/-- All four branches of `triggerRefillCheck`'s decision, packaged. -/
theorem triggerRefillCheck_cases (e t d : String) (now : Int) (s : BankState) :
    triggerRefillCheck e t d now s
        = (⟨pruneStale (bankKey e t d) now s.bank, s.refilling⟩, none) ∨
      (bankKey e t d ∉ s.refilling ∧
        triggerRefillCheck e t d now s
          = (⟨pruneStale (bankKey e t d) now s.bank,
                setAdd s.refilling (bankKey e t d)⟩,
              some (MIN_BANK
                - ((queueOf s.bank (bankKey e t d)).filter (isFresh now)).length))) := by
  by_cases hd : MIN_BANK ≤ ((queueOf s.bank (bankKey e t d)).filter (isFresh now)).length
  · exact Or.inl (triggerRefillCheck_noop_of_depth e t d now s hd)
  · by_cases hr : bankKey e t d ∈ s.refilling
    · exact Or.inl (triggerRefillCheck_noop_of_refilling e t d now s hr)
    · exact Or.inr ⟨hr, triggerRefillCheck_spawn e t d now s (not_le.mp hd) hr⟩

theorem map_fst_setRoundBudget (rounds : List (String × Nat)) (key : String)
    (m : Nat) : (setRoundBudget rounds key m).map Prod.fst = rounds.map Prod.fst := by
  induction rounds with
  | nil => rfl
  | cons r rest ih =>
      obtain ⟨k, n⟩ := r
      by_cases hk : k = key <;> simp [setRoundBudget, hk, ih]

theorem mem_map_fst_of_roundBudget {rounds : List (String × Nat)} {key : String}
    {n : Nat} (h : roundBudget rounds key = some n) : key ∈ rounds.map Prod.fst := by
  induction rounds with
  | nil => simp [roundBudget] at h
  | cons r rest ih =>
      obtain ⟨k, m⟩ := r
      by_cases hk : k = key
      · simp [hk]
      · simp only [roundBudget, if_neg hk] at h
        simp [ih h]

theorem mem_map_fst_filter_ne {rounds : List (String × Nat)} {key k : String} :
    k ∈ (rounds.filter (fun r => r.1 ≠ key)).map Prod.fst
      ↔ k ∈ rounds.map Prod.fst ∧ k ≠ key := by
  constructor
  · intro h
    obtain ⟨x, hx, rfl⟩ := List.mem_map.mp h
    obtain ⟨hxl, hpx⟩ := List.mem_filter.mp hx
    exact ⟨List.mem_map_of_mem _ hxl, by simpa using hpx⟩
  · rintro ⟨h1, h2⟩
    obtain ⟨x, hx, rfl⟩ := List.mem_map.mp h1
    exact List.mem_map_of_mem _ (List.mem_filter.mpr ⟨hx, by simpa using h2⟩)

theorem bankBounded_pruneStale {b : Bank} (h : BankBounded b) (key : String)
    (now : Int) : BankBounded (pruneStale key now b) := by
  intro k q hq
  by_cases hk : k = key
  · subst hk
    rw [getQ_pruneStale_self] at hq
    cases hq
    calc ((queueOf b k).filter (isFresh now)).length
        ≤ (queueOf b k).length := (List.filter_sublist _).length_le
      _ ≤ MAX_BANK := queueOf_length_le_of_bounded h
  · rw [getQ_pruneStale_ne _ _ _ hk] at hq
    exact h k q hq

theorem bankBounded_pop {b : Bank} (h : BankBounded b) (e t d : String)
    (now : Int) : BankBounded (popFromBank e t d now b).2 := by
  intro k q hq
  by_cases hk : k = bankKey e t d
  · subst hk
    rw [getQ_popFromBank_self] at hq
    cases hq
    calc (((queueOf b (bankKey e t d)).filter (isFresh now)).tail).length
        ≤ ((queueOf b (bankKey e t d)).filter (isFresh now)).length :=
          (List.tail_sublist _).length_le
      _ ≤ (queueOf b (bankKey e t d)).length := (List.filter_sublist _).length_le
      _ ≤ MAX_BANK := queueOf_length_le_of_bounded h
  · rw [getQ_popFromBank_ne _ _ _ _ _ hk] at hq
    exact h k q hq

/-- Every pool event preserves the depth bound. -/
theorem applyOp_queuesBounded {s : SysState} (op : PoolOp)
    (h : QueuesBounded s) : QueuesBounded (applyOp s op) := by
  cases op with
  | popEv e t d now =>
      intro k q hq
      simp only [applyOp] at hq
      exact bankBounded_pop h e t d now k q hq
  | depthEv e t d now =>
      intro k q hq
      simp only [applyOp, bankDepth_snd] at hq
      exact bankBounded_pruneStale h (bankKey e t d) now k q hq
  | triggerEv e t d now =>
      intro k q hq
      simp only [applyOp] at hq
      rcases triggerRefillCheck_cases e t d now ⟨s.bank, s.refilling⟩ with hc | ⟨_, hc⟩ <;>
        · rw [hc] at hq
          exact bankBounded_pruneStale h (bankKey e t d) now k q hq
  | pushEv key item =>
      intro k q hq
      simp only [applyOp] at hq
      split at hq
      · exact h k q hq
      · exact h k q hq
      · split at hq
        · exact h k q hq
        · rename_i hm
          by_cases hk : k = key
          · subst hk
            simp only [getQ_setQ_self, Option.some.injEq] at hq
            rw [← hq]
            rw [getQueue_fst] at hm
            simp only [List.length_append, List.length_cons, List.length_nil]
            rw [getQueue_fst]
            omega
          · rw [getQ_setQ_ne _ _ hk, getQ_getQueue_snd_ne _ _ hk] at hq
            exact h k q hq
  | endEv key =>
      intro k q hq
      simp only [applyOp] at hq
      split at hq
      · exact h k q hq
      · exact h k q hq

/-- Every pool event preserves the single-flight invariant. -/
theorem applyOp_singleFlight {s : SysState} (op : PoolOp)
    (h : SingleFlight s) : SingleFlight (applyOp s op) := by
  obtain ⟨hnd, hiff⟩ := h
  cases op with
  | popEv e t d now => exact ⟨hnd, hiff⟩
  | depthEv e t d now => exact ⟨hnd, hiff⟩
  | triggerEv e t d now =>
      simp only [applyOp]
      rcases triggerRefillCheck_cases e t d now ⟨s.bank, s.refilling⟩ with hc | ⟨hnm, hc⟩
      · rw [hc]
        exact ⟨hnd, hiff⟩
      · rw [hc]
        refine ⟨?_, ?_⟩
        · simp only [List.map_cons, List.nodup_cons]
          exact ⟨fun hm => hnm ((hiff _).mp hm), hnd⟩
        · intro k
          simp only [List.map_cons, List.mem_cons, mem_setAdd]
          rw [hiff k]
          tauto
  | pushEv key item =>
      simp only [applyOp]
      split
      · exact ⟨hnd, hiff⟩
      · exact ⟨hnd, hiff⟩
      · split
        · exact ⟨hnd, hiff⟩
        · refine ⟨?_, ?_⟩
          · rw [map_fst_setRoundBudget]
            exact hnd
          · intro k
            rw [map_fst_setRoundBudget]
            exact hiff k
  | endEv key =>
      simp only [applyOp]
      split
      · exact ⟨hnd, hiff⟩
      · refine ⟨?_, ?_⟩
        · exact ((List.filter_sublist _).map Prod.fst).nodup hnd
        · intro k
          rw [mem_map_fst_filter_ne, mem_setDelete, hiff k]

/-- The depth bound is preserved along any event sequence. -/
theorem applyOps_queuesBounded {s : SysState} (ops : List PoolOp)
    (hb : QueuesBounded s) : QueuesBounded (applyOps s ops) := by
  induction ops generalizing s with
  | nil => exact hb
  | cons op rest ih => exact ih (applyOp_queuesBounded op hb)

/-- The single-flight invariant is preserved along any event sequence. -/
theorem applyOps_singleFlight {s : SysState} (ops : List PoolOp)
    (hf : SingleFlight s) : SingleFlight (applyOps s ops) := by
  induction ops generalizing s with
  | nil => exact hf
  | cons op rest ih => exact ih (applyOp_singleFlight op hf)

/-! ## Claim C9 — structural key addressing -/

/-- Cancellation around a separator that occurs in neither prefix. -/
theorem append_sep_cancel {α : Type} {sep : α} :
    ∀ {xs xs' ys ys' : List α}, sep ∉ xs → sep ∉ xs' →
      xs ++ sep :: ys = xs' ++ sep :: ys' → xs = xs' ∧ ys = ys' := by
  intro xs
  induction xs with
  | nil =>
      intro xs' ys ys' _ hx' h
      cases xs' with
      | nil => simpa using h
      | cons a rest =>
          simp only [List.nil_append, List.cons_append, List.cons.injEq] at h
          exact absurd (h.1 ▸ List.mem_cons_self a rest) hx'
  | cons x xs ih =>
      intro xs' ys ys' hx hx' h
      cases xs' with
      | nil =>
          simp only [List.cons_append, List.nil_append, List.cons.injEq] at h
          exact absurd (h.1 ▸ List.mem_cons_self x xs) hx
      | cons a rest =>
          simp only [List.cons_append, List.cons.injEq] at h
          have hx2 : sep ∉ xs := fun hm => hx (List.mem_cons_of_mem _ hm)
          have hx2' : sep ∉ rest := fun hm => hx' (List.mem_cons_of_mem _ hm)
          obtain ⟨h1, h2⟩ := ih hx2 hx2' h.2
          exact ⟨by rw [h.1, h1], h2⟩

/-- C9 (counterexample): `bankKey` is not injective on all string triples —
two structurally different triples collide when a component contains the
separator `:`. -/
theorem bankKey_collision :
    bankKey "a:b" "c" "d" = bankKey "a" "b:c" "d" ∧
      (("a:b", "c", "d") : String × String × String) ≠ ("a", "b:c", "d") := by
  constructor
  · rfl
  · decide

/-- C9 (amended): on triples whose first two components are colon-free,
`bankKey` identifies two triples exactly when they are component-wise equal. -/
theorem bankKey_inj_on_colon_free (e t d e' t' d' : String)
    (he : ':' ∉ e.data) (he' : ':' ∉ e'.data)
    (ht : ':' ∉ t.data) (ht' : ':' ∉ t'.data) :
    bankKey e t d = bankKey e' t' d' ↔
      ((e, t, d) : String × String × String) = (e', t', d') := by
  constructor
  · intro h
    have hd : (bankKey e t d).data = (bankKey e' t' d').data := by rw [h]
    simp only [bankKey, String.data_append, List.append_assoc] at hd
    have hd' : e.data ++ ':' :: (t.data ++ ':' :: d.data)
        = e'.data ++ ':' :: (t'.data ++ ':' :: d'.data) := by
      simpa using hd
    obtain ⟨h1, h2⟩ := append_sep_cancel he he' hd'
    obtain ⟨h3, h4⟩ := append_sep_cancel ht ht' h2
    simp [String.ext h1, String.ext h3, String.ext h4]
  · intro h
    simp only [Prod.mk.injEq] at h
    rw [h.1, h.2.1, h.2.2]

/-- Witness for C9 (amended) at concrete colon-free components. -/
theorem bankKey_inj_on_colon_free_witness :
    bankKey "clf" "t1" "easy" = bankKey "clf" "t2" "easy" ↔
      (("clf", "t1", "easy") : String × String × String) = ("clf", "t2", "easy") :=
  bankKey_inj_on_colon_free "clf" "t1" "easy" "clf" "t2" "easy"
    (by decide) (by decide) (by decide) (by decide)

/-! ## Claim C10 — `getBankStats` is a raw, unpruned read -/

/-- C10: `getBankStats` reports the raw queue length for every known key (no
staleness pruning), and on a bank holding one stale question it reports a
strictly larger count than `bankDepth` observes at the same instant. -/
theorem getBankStats_raw_no_pruning :
    (∀ (b : Bank) (k : String) (q : List BankQuestion),
        getQ b k = some q → (k, q.length) ∈ getBankStats b) ∧
      getBankStats staleBank = [("clf:t1:easy", 1)] ∧
      (bankDepth "clf" "t1" "easy" (MAX_AGE_MS + 1) staleBank).1 = 0 ∧
      (bankDepth "clf" "t1" "easy" (MAX_AGE_MS + 1) staleBank).1 < 1 := by
  refine ⟨?_, rfl, ?_, ?_⟩
  · intro b k q h
    induction b with
    | nil => simp [getQ] at h
    | cons e rest ih =>
        obtain ⟨k0, q0⟩ := e
        simp only [getBankStats, List.map_cons]
        by_cases hk : k0 = k
        · subst hk
          simp only [getQ, if_pos, Option.some.injEq] at h
          rw [← h]
          exact List.mem_cons_self _ _
        · simp only [getQ, if_neg hk] at h
          exact List.mem_cons_of_mem _ (ih h)
  · decide
  · decide

/-- Witness for C10 at a concrete stale bank. -/
theorem getBankStats_raw_no_pruning_witness :
    ("clf:t1:easy", 1) ∈ getBankStats staleBank :=
  getBankStats_raw_no_pruning.1 staleBank "clf:t1:easy"
    [⟨qDemo, "gemini-2.5-pro", 0⟩] rfl

/-! ## Claim C1 — single-flight background refill -/

/-- C1: the refill trigger is a no-op — no round spawned, guard set
untouched — when the pruned queue depth is at least `MIN_BANK` or the key is
already in the guard set; every completed round (prompt-factory failure
included) removes the key from the guard set unconditionally; and along any
interleaving of pool events, active rounds stay pairwise distinct per key and
the guard set holds exactly the keys with an active round. -/
theorem single_flight_refill :
    (∀ (e t d : String) (now : Int) (s : BankState),
        MIN_BANK ≤ ((queueOf s.bank (bankKey e t d)).filter (isFresh now)).length →
          (triggerRefillCheck e t d now s).2 = none ∧
            ((triggerRefillCheck e t d now s).1).refilling = s.refilling) ∧
      (∀ (e t d : String) (now : Int) (s : BankState),
          bankKey e t d ∈ s.refilling →
            (triggerRefillCheck e t d now s).2 = none ∧
              ((triggerRefillCheck e t d now s).1).refilling = s.refilling) ∧
      (∀ (key : String) (now : Int) (promptsOk : Bool)
          (gens : List (Except String GenerationResult)) (needed : Nat)
          (s : BankState),
          (refillRound key now promptsOk gens needed s).refilling
              = setDelete s.refilling key ∧
            key ∉ (refillRound key now promptsOk gens needed s).refilling) ∧
      (∀ (ops : List PoolOp) (s : SysState),
          SingleFlight s → SingleFlight (applyOps s ops)) := by
  refine ⟨?_, ?_, ?_, ?_⟩
  · intro e t d now s h
    rw [triggerRefillCheck_noop_of_depth e t d now s h]
    exact ⟨rfl, rfl⟩
  · intro e t d now s h
    rw [triggerRefillCheck_noop_of_refilling e t d now s h]
    exact ⟨rfl, rfl⟩
  · intro key now promptsOk gens needed s
    exact ⟨rfl, not_mem_setDelete_self _ _⟩
  · intro ops s h
    exact applyOps_singleFlight ops h

/-- Witness for C1: a concrete deep queue, a concrete marked key, a concrete
round, and a concrete event sequence from the empty pool. -/
theorem single_flight_refill_witness :
    ((triggerRefillCheck "clf" "t1" "easy" 1 ⟨fullBank, []⟩).2 = none ∧
        ((triggerRefillCheck "clf" "t1" "easy" 1 ⟨fullBank, []⟩).1).refilling = []) ∧
      ((triggerRefillCheck "clf" "t1" "easy" 1 ⟨[], ["clf:t1:easy"]⟩).2 = none ∧
        ((triggerRefillCheck "clf" "t1" "easy" 1 ⟨[], ["clf:t1:easy"]⟩).1).refilling
          = ["clf:t1:easy"]) ∧
      ((refillRound "clf:t1:easy" 1 false [] 10 ⟨[], ["clf:t1:easy"]⟩).refilling
          = setDelete ["clf:t1:easy"] "clf:t1:easy" ∧
        "clf:t1:easy" ∉
          (refillRound "clf:t1:easy" 1 false [] 10 ⟨[], ["clf:t1:easy"]⟩).refilling) ∧
      SingleFlight (applyOps ⟨[], [], []⟩
        [PoolOp.triggerEv "clf" "t1" "easy" 1, PoolOp.endEv "clf:t1:easy"]) :=
  ⟨single_flight_refill.1 "clf" "t1" "easy" 1 ⟨fullBank, []⟩ (by decide),
    single_flight_refill.2.1 "clf" "t1" "easy" 1 ⟨[], ["clf:t1:easy"]⟩ (by decide),
    single_flight_refill.2.2.1 "clf:t1:easy" 1 false [] 10 ⟨[], ["clf:t1:easy"]⟩,
    single_flight_refill.2.2.2 _ ⟨[], [], []⟩ ⟨by simp, by simp⟩⟩

/-! ## Claim C2 — bounded queue depth -/

/-- C2: one round appends at most `needed = MIN_BANK - depth` items, is a
no-op once the queue holds `MAX_BANK` items, and along any interleaving of
pool events every queue stays within `MAX_BANK = 20`. -/
theorem bounded_depth_refill :
    (∀ (key : String) (now : Int) (gens : List (Except String GenerationResult))
        (needed : Nat) (b : Bank),
        (queueOf (refillLoop key now gens needed 0 b) key).length
          ≤ (queueOf b key).length + needed) ∧
      (∀ (key : String) (now : Int) (gens : List (Except String GenerationResult))
          (needed generated : Nat) (b : Bank),
          MAX_BANK ≤ (queueOf b key).length →
            refillLoop key now gens needed generated b = b) ∧
      (∀ (ops : List PoolOp) (s : SysState),
          QueuesBounded s → QueuesBounded (applyOps s ops)) := by
  refine ⟨?_, ?_, ?_⟩
  · intro key now gens needed b
    simpa using refillLoop_length_le key now gens needed 0 b
  · intro key now gens needed generated b h
    exact refillLoop_of_maxed key now gens needed generated h
  · intro ops s h
    exact applyOps_queuesBounded ops h

/-- Witness for C2 at concrete banks and a concrete event sequence. -/
theorem bounded_depth_refill_witness :
    (queueOf (refillLoop "clf:t1:easy" 1
          [.ok ⟨qDemo, "gemini-2.5-pro"⟩] 10 0 []) "clf:t1:easy").length
        ≤ (queueOf ([] : Bank) "clf:t1:easy").length + 10 ∧
      refillLoop "clf:t1:easy" 1 [.ok ⟨qDemo, "gemini-2.5-pro"⟩] 10 0 maxedBank
          = maxedBank ∧
      QueuesBounded (applyOps ⟨[], [], []⟩
        [PoolOp.triggerEv "clf" "t1" "easy" 1,
          PoolOp.pushEv "clf:t1:easy" ⟨qDemo, "gemini-2.5-pro", 1⟩]) :=
  ⟨bounded_depth_refill.1 "clf:t1:easy" 1 _ 10 [],
    bounded_depth_refill.2.1 "clf:t1:easy" 1 _ 10 0 maxedBank (by decide),
    bounded_depth_refill.2.2 _ ⟨[], [], []⟩ (by intro k q hq; simp [getQ] at hq)⟩

/-! ## Claim C4 — pop prunes, then serves FIFO, and never generates -/

/-- C4: `popFromBank` first discards stale questions, then removes and
returns the head of the remaining queue (`none` on empty); every question
kept is fresh and `bankDepth` counts only fresh questions; pop only removes
(each resulting queue is a sublist of its input, so nothing is generated);
and when the queue is ordered by creation time, the question returned is the
oldest still-fresh one. -/
theorem pop_prunes_then_fifo :
    ∀ (e t d : String) (now : Int) (b : Bank),
      (popFromBank e t d now b).1
          = ((queueOf b (bankKey e t d)).filter (isFresh now)).head? ∧
      getQ (popFromBank e t d now b).2 (bankKey e t d)
          = some ((queueOf b (bankKey e t d)).filter (isFresh now)).tail ∧
      (∀ k', k' ≠ bankKey e t d →
        getQ (popFromBank e t d now b).2 k' = getQ b k') ∧
      (∀ x ∈ (queueOf b (bankKey e t d)).filter (isFresh now),
        isFresh now x = true) ∧
      (bankDepth e t d now b).1
          = ((queueOf b (bankKey e t d)).filter (isFresh now)).length ∧
      (∀ k', List.Sublist (queueOf (popFromBank e t d now b).2 k') (queueOf b k')) ∧
      (List.Pairwise (fun a a' => a.generatedAt ≤ a'.generatedAt)
          (queueOf b (bankKey e t d)) →
        ∀ item, (popFromBank e t d now b).1 = some item →
          isFresh now item = true ∧
            ∀ x ∈ (queueOf b (bankKey e t d)).filter (isFresh now),
              item.generatedAt ≤ x.generatedAt) := by
  intro e t d now b
  refine ⟨popFromBank_fst e t d now b, getQ_popFromBank_self e t d now b,
    fun k' hk => getQ_popFromBank_ne e t d now b hk,
    fun x hx => (List.mem_filter.mp hx).2, bankDepth_fst e t d now b, ?_, ?_⟩
  · intro k'
    by_cases hk : k' = bankKey e t d
    · subst hk
      have hq : queueOf (popFromBank e t d now b).2 (bankKey e t d)
          = ((queueOf b (bankKey e t d)).filter (isFresh now)).tail := by
        rw [queueOf, getQ_popFromBank_self e t d now b]
        rfl
      rw [hq]
      exact (List.tail_sublist _).trans (List.filter_sublist _)
    · have hq : queueOf (popFromBank e t d now b).2 k' = queueOf b k' := by
        rw [queueOf, getQ_popFromBank_ne e t d now b hk]
        rfl
      rw [hq]
  · intro hsorted item hitem
    rw [popFromBank_fst e t d now b] at hitem
    have hmem : item ∈ (queueOf b (bankKey e t d)).filter (isFresh now) :=
      List.mem_of_mem_head? hitem
    refine ⟨(List.mem_filter.mp hmem).2, ?_⟩
    have hsf : List.Pairwise (fun a a' => a.generatedAt ≤ a'.generatedAt)
        ((queueOf b (bankKey e t d)).filter (isFresh now)) :=
      hsorted.filter _
    intro x hx
    cases hf : (queueOf b (bankKey e t d)).filter (isFresh now) with
    | nil => simp [hf] at hitem
    | cons y ys =>
        rw [hf] at hitem
        simp only [List.head?_cons, Option.some.injEq] at hitem
        subst hitem
        rw [hf] at hx hsf
        rcases List.mem_cons.mp hx with rfl | hx'
        · exact le_refl _
        · exact (List.pairwise_cons.mp hsf).1 x hx'

/-- Witness for C4 on a concrete two-question queue: the popped question is
fresh and oldest, and an unrelated key is untouched. -/
theorem pop_prunes_then_fifo_witness :
    (isFresh 6 ⟨qDemo, "gemini-2.5-pro", 0⟩ = true ∧
        ∀ x ∈ (queueOf sortedBank "clf:t1:easy").filter (isFresh 6),
          (⟨qDemo, "gemini-2.5-pro", 0⟩ : BankQuestion).generatedAt
            ≤ x.generatedAt) ∧
      getQ (popFromBank "clf" "t1" "easy" 6 sortedBank).2 "other"
        = getQ sortedBank "other" :=
  ⟨(pop_prunes_then_fifo "clf" "t1" "easy" 6 sortedBank).2.2.2.2.2.2
      (by decide) _ (by decide),
    (pop_prunes_then_fifo "clf" "t1" "easy" 6 sortedBank).2.2.1 "other"
      (by decide)⟩

/-! ## Claim C3 — ordered fallback, first success wins -/

/-- The chain on `pre ++ m :: post` with every backend of `pre` failing and
`m` succeeding returns `m`'s question tagged with `m`. -/
theorem runFallbackChain_first_success
    (backend : String → Except String GeneratedQuestion) :
    ∀ (pre : List String) (post : List String) (m : String)
      (q : GeneratedQuestion) (lastErr : Option String),
      (∀ x ∈ pre, ∃ err, backend x = .error err) → backend m = .ok q →
      runFallbackChain backend (pre ++ m :: post) lastErr = .ok ⟨q, m⟩ := by
  intro pre
  induction pre with
  | nil =>
      intro post m q lastErr _ hm
      simp [runFallbackChain, hm]
  | cons x rest ih =>
      intro post m q lastErr hpre hm
      obtain ⟨err, herr⟩ := hpre x (List.mem_cons_self x rest)
      simp only [List.cons_append, runFallbackChain, herr]
      exact ih post m q (some err)
        (fun y hy => hpre y (List.mem_cons_of_mem _ hy)) hm

/-- Under the same shape, exactly `pre`'s backends and then `m` are invoked. -/
theorem chainInvocations_first_success
    (backend : String → Except String GeneratedQuestion) :
    ∀ (pre : List String) (post : List String) (m : String)
      (q : GeneratedQuestion),
      (∀ x ∈ pre, ∃ err, backend x = .error err) → backend m = .ok q →
      chainInvocations backend (pre ++ m :: post) = pre ++ [m] := by
  intro pre
  induction pre with
  | nil =>
      intro post m q _ hm
      simp [chainInvocations, hm]
  | cons x rest ih =>
      intro post m q hpre hm
      obtain ⟨err, herr⟩ := hpre x (List.mem_cons_self x rest)
      simp only [List.cons_append, chainInvocations, herr, List.cons.injEq,
        true_and]
      exact ih post m q (fun y hy => hpre y (List.mem_cons_of_mem _ hy)) hm

/-- C3: against the default chain, when every backend before `m` fails and
`m` validates, `generateQuestionWithFallback` returns `m`'s question tagged
`modelUsed = m`; the invoked backends are exactly those before `m` plus `m`
itself (those after `m` are never reached), and no backend is invoked twice. -/
theorem chain_first_success :
    ∀ (backend : String → Except String GeneratedQuestion)
      (pre post : List String) (m : String) (q : GeneratedQuestion),
      MODEL_FALLBACK_CHAIN = pre ++ m :: post →
      (∀ x ∈ pre, ∃ err, backend x = .error err) →
      backend m = .ok q →
      generateQuestionWithFallback backend = .ok ⟨q, m⟩ ∧
        chainInvocations backend MODEL_FALLBACK_CHAIN = pre ++ [m] ∧
        ∀ x, (chainInvocations backend MODEL_FALLBACK_CHAIN).count x ≤ 1 := by
  intro backend pre post m q hchain hpre hm
  have hrun : generateQuestionWithFallback backend = .ok ⟨q, m⟩ := by
    rw [generateQuestionWithFallback, hchain]
    exact runFallbackChain_first_success backend pre post m q none hpre hm
  have hinv : chainInvocations backend MODEL_FALLBACK_CHAIN = pre ++ [m] := by
    rw [hchain]
    exact chainInvocations_first_success backend pre post m q hpre hm
  refine ⟨hrun, hinv, ?_⟩
  have hnd : MODEL_FALLBACK_CHAIN.Nodup := by decide
  have hsub : List.Sublist (pre ++ [m]) (pre ++ m :: post) :=
    ((List.nil_sublist post).cons₂ m).append_left pre
  have : (pre ++ [m]).Nodup := hsub.nodup (hchain ▸ hnd)
  intro x
  rw [hinv]
  exact List.nodup_iff_count_le_one.mp this x

/-- Witness for C3: the primary fails, the first fallback answers, and the
last two models are never invoked. -/
theorem chain_first_success_witness :
    generateQuestionWithFallback demoBackend = .ok ⟨qDemo, "gemini-2.0-flash"⟩ ∧
      chainInvocations demoBackend MODEL_FALLBACK_CHAIN
        = ["gemini-2.5-pro", "gemini-2.0-flash"] ∧
      ∀ x, (chainInvocations demoBackend MODEL_FALLBACK_CHAIN).count x ≤ 1 :=
  chain_first_success demoBackend ["gemini-2.5-pro"]
    ["gemini-1.5-pro-002", "gemini-1.5-flash-002"] "gemini-2.0-flash" qDemo rfl
    (by intro x hx
        rw [List.mem_singleton.mp hx]
        exact ⟨"503 quota exceeded", rfl⟩)
    rfl

/-! ## Claim C5 — pool first, generator once on miss, refill always -/

/-- C5: on a pool hit the handler serves the pooled question with
`from_bank = true` and zero synchronous generator calls; on a miss it calls
the generator chain exactly once and serves its result with
`from_bank = false`; on both paths the refill trigger is reached. -/
theorem serve_pool_first :
    (∀ (e t d : String) (now : Int) (gen : Except String GenerationResult)
        (s : BankState) (q : BankQuestion),
        (popFromBank e t d now s.bank).1 = some q →
          (serve e t d now gen s).response = .ok (q, true) ∧
            (serve e t d now gen s).genCalls = 0 ∧
            (serve e t d now gen s).refillInvoked = true) ∧
      (∀ (e t d : String) (now : Int) (r : GenerationResult) (s : BankState),
          (popFromBank e t d now s.bank).1 = none →
            (serve e t d now (.ok r) s).response
                = .ok (⟨r.question, r.modelUsed, now⟩, false) ∧
              (serve e t d now (.ok r) s).genCalls = 1 ∧
              (serve e t d now (.ok r) s).refillInvoked = true) := by
  constructor
  · intro e t d now gen s q h
    simp [serve, h]
  · intro e t d now r s h
    simp [serve, h]

/-- Witness for C5: a hit on a warm bank and a miss on the empty bank. -/
theorem serve_pool_first_witness :
    ((serve "clf" "t1" "easy" 6 (.error "unused") ⟨sortedBank, []⟩).response
          = .ok (⟨qDemo, "gemini-2.5-pro", 0⟩, true) ∧
        (serve "clf" "t1" "easy" 6 (.error "unused") ⟨sortedBank, []⟩).genCalls = 0 ∧
        (serve "clf" "t1" "easy" 6 (.error "unused") ⟨sortedBank, []⟩).refillInvoked
          = true) ∧
      ((serve "clf" "t1" "easy" 6 (.ok ⟨qDemo, "gemini-2.5-pro"⟩)
            ⟨[], []⟩).response = .ok (⟨qDemo, "gemini-2.5-pro", 6⟩, false) ∧
        (serve "clf" "t1" "easy" 6 (.ok ⟨qDemo, "gemini-2.5-pro"⟩)
            ⟨[], []⟩).genCalls = 1 ∧
        (serve "clf" "t1" "easy" 6 (.ok ⟨qDemo, "gemini-2.5-pro"⟩)
            ⟨[], []⟩).refillInvoked = true) :=
  ⟨serve_pool_first.1 "clf" "t1" "easy" 6 (.error "unused") ⟨sortedBank, []⟩
      ⟨qDemo, "gemini-2.5-pro", 0⟩ (by decide),
    serve_pool_first.2 "clf" "t1" "easy" 6 ⟨qDemo, "gemini-2.5-pro"⟩ ⟨[], []⟩
      (by decide)⟩

/-! ## Claim C6 — chain exhaustion surfaces as 502 and skips the refill -/

/-- C6: when all four models of the default chain fail, the chain raises one
aggregate error naming the last underlying cause; the handler then answers
502 with that detail, leaves the bank exactly as the pop left it, spawns
nothing and never reaches the refill trigger. -/
theorem chain_exhausted_propagates :
    (∀ (backend : String → Except String GeneratedQuestion) (e1 e2 e3 e4 : String),
        backend "gemini-2.5-pro" = .error e1 →
        backend "gemini-2.0-flash" = .error e2 →
        backend "gemini-1.5-pro-002" = .error e3 →
        backend "gemini-1.5-flash-002" = .error e4 →
        generateQuestionWithFallback backend
          = .error ("All models in the fallback chain failed. Last error: " ++ e4)) ∧
      (∀ (e t d : String) (now : Int) (msg : String) (s : BankState),
          (popFromBank e t d now s.bank).1 = none →
            serve e t d now (.error msg) s
              = ⟨.error (502, msg),
                  ⟨(popFromBank e t d now s.bank).2, s.refilling⟩, none, 1, false⟩) := by
  constructor
  · intro backend e1 e2 e3 e4 h1 h2 h3 h4
    simp [generateQuestionWithFallback, MODEL_FALLBACK_CHAIN, runFallbackChain,
      h1, h2, h3, h4]
  · intro e t d now msg s h
    simp [serve, h]

/-- Witness for C6: a backend that always fails with the same message, and
the empty pool. -/
theorem chain_exhausted_propagates_witness :
    generateQuestionWithFallback (fun _ => .error "quota")
        = .error "All models in the fallback chain failed. Last error: quota" ∧
      serve "clf" "t1" "easy" 1 (.error "quota") ⟨[], []⟩
        = ⟨.error (502, "quota"),
            ⟨(popFromBank "clf" "t1" "easy" 1 ([] : Bank)).2, []⟩, none, 1, false⟩ :=
  ⟨chain_exhausted_propagates.1 (fun _ => .error "quota") "quota" "quota"
      "quota" "quota" rfl rfl rfl rfl,
    chain_exhausted_propagates.2 "clf" "t1" "easy" 1 "quota" ⟨[], []⟩ (by decide)⟩

/-! ## Claim C7 — strict schema validation -/

/-- C7 (counterexample): a payload whose options field carries five labeled
entries — not exactly four — is accepted by the validator rather than
rejected. -/
theorem validation_accepts_extra_option :
    fiveOptions.length = 5 ∧
      parseAndValidateQuestion (some fiveOptionsPayload)
        = .ok { question_en := "Which service?"
              , visual_context := ⟨"none", ""⟩
              , options_en := ⟨"a", "b", "c", "d"⟩
              , correct_letter := "A"
              , explanation_pt := "pt" } :=
  ⟨rfl, rfl⟩

/-- C7 (amended): the validator accepts a payload exactly when it is
parseable and non-null, its four required fields have the right primitive
types, its options value is non-null and carries the labels `A`, `B`, `C`,
`D` all with string values (entries beyond those four are not rejected), and
its correct letter is one of `A`–`D`; every other payload is rejected with an
error, so no failed payload yields an item. -/
theorem validation_accepts_iff :
    ∀ parsed : Option Json,
      isOk (parseAndValidateQuestion parsed) = acceptsPayload parsed := by
  intro parsed
  cases parsed with
  | none => rfl
  | some q =>
      cases q with
      | null => rfl
      | bool b => rfl
      | num n => rfl
      | str s => rfl
      | arr l => rfl
      | obj fields =>
          simp only [parseAndValidateQuestion, acceptsPayload]
          cases h1 : jsTypeof (jsProp (Json.obj fields) "question_en") == "string" with
          | false => simp [h1, isOk]
          | true =>
          cases h2 : jsTypeof (jsProp (Json.obj fields) "options_en") == "object" with
          | false => simp [h1, h2, isOk]
          | true =>
          cases h3 : jsTypeof (jsProp (Json.obj fields) "correct_letter") == "string" with
          | false => simp [h1, h2, h3, isOk]
          | true =>
          cases h4 : jsTypeof (jsProp (Json.obj fields) "explanation_pt") == "string" with
          | false => simp [h1, h2, h3, h4, isOk]
          | true =>
          cases ho : jsProp (Json.obj fields) "options_en" with
          | none => rw [ho] at h2; simp [jsTypeof] at h2
          | some v =>
              cases v with
              | null => simp [h1, h2, h3, h4, ho, isOk, notNull]
              | bool b => rw [ho] at h2; simp [jsTypeof] at h2
              | num n => rw [ho] at h2; simp [jsTypeof] at h2
              | str s => rw [ho] at h2; simp [jsTypeof] at h2
              | arr l => simp [h1, h2, h3, h4, ho, isOk, notNull, jsProp, jsTypeof]
              | obj optsFields =>
                  cases h5 : jsTypeof (jsProp (Json.obj optsFields) "A") == "string" with
                  | false => simp [h1, h2, h3, h4, ho, h5, isOk, notNull]
                  | true =>
                  cases h6 : jsTypeof (jsProp (Json.obj optsFields) "B") == "string" with
                  | false => simp [h1, h2, h3, h4, ho, h5, h6, isOk, notNull]
                  | true =>
                  cases h7 : jsTypeof (jsProp (Json.obj optsFields) "C") == "string" with
                  | false => simp [h1, h2, h3, h4, ho, h5, h6, h7, isOk, notNull]
                  | true =>
                  cases h8 : jsTypeof (jsProp (Json.obj optsFields) "D") == "string" with
                  | false => simp [h1, h2, h3, h4, ho, h5, h6, h7, h8, isOk, notNull]
                  | true =>
                  cases h9 : ["A", "B", "C", "D"].contains
                      (asString (jsProp (Json.obj fields) "correct_letter")) with
                  | false =>
                      simp [h1, h2, h3, h4, ho, h5, h6, h7, h8, h9, isOk, notNull]
                  | true =>
                      simp [h1, h2, h3, h4, ho, h5, h6, h7, h8, h9, isOk, notNull]

/-! ## Claim C8 — visual-context defaulting and coercion -/

/-- C8: every accepted payload's visual evidence is the normalisation of its
`visual_context` field; a falsy or absent field, or one whose `type` is not
recognized, normalises to exactly `{type:"none", content:""}`; a recognized
`type` is kept with its content coerced to a string — the content itself when
it is a string, the empty string otherwise. -/
theorem visual_context_defaulting :
    (∀ (q : Json) (r : GeneratedQuestion),
        parseAndValidateQuestion (some q) = .ok r →
          r.visual_context = normalizeVisualContext (jsProp q "visual_context")) ∧
      (∀ vc : Option Json, jsTruthy vc = false →
          normalizeVisualContext vc = ⟨"none", ""⟩) ∧
      normalizeVisualContext none = ⟨"none", ""⟩ ∧
      (∀ vc : Option Json, vcTypeMatch vc = none →
          normalizeVisualContext vc = ⟨"none", ""⟩) ∧
      (∀ (vc : Option Json) (t : String), vcTypeMatch vc = some t →
          normalizeVisualContext vc
            = ⟨t, coerceContent (jsProp (vc.getD .null) "content")⟩) ∧
      (∀ s : String, coerceContent (some (.str s)) = s) ∧
      (∀ c : Option Json, jsTypeof c ≠ "string" → coerceContent c = "") := by
  refine ⟨?_, ?_, rfl, ?_, ?_, fun s => rfl, ?_⟩
  · intro q r h
    cases q with
    | null => simp [parseAndValidateQuestion] at h
    | bool b => exact Except.noConfusion h
    | num n => exact Except.noConfusion h
    | str s => exact Except.noConfusion h
    | arr l => exact Except.noConfusion h
    | obj fields =>
        simp only [parseAndValidateQuestion] at h
        split at h
        · exact Except.noConfusion h
        · split at h
          · exact Except.noConfusion h
          · split at h
            · exact Except.noConfusion h
            · split at h
              · exact Except.noConfusion h
              · injection h with h'
                rw [← h']
  · intro vc h
    simp [normalizeVisualContext, h]
  · intro vc h
    cases ht : jsTruthy vc <;> simp [normalizeVisualContext, h, ht]
  · intro vc t h
    cases vc with
    | none => simp [vcTypeMatch] at h
    | some v =>
        cases v with
        | null => simp [vcTypeMatch, jsProp] at h
        | bool b => simp [vcTypeMatch, jsProp] at h
        | num n => simp [vcTypeMatch, jsProp] at h
        | str s => simp [vcTypeMatch, jsProp] at h
        | arr l => simp [vcTypeMatch, jsProp] at h
        | obj fs => simp [normalizeVisualContext, jsTruthy, h]
  · intro c h
    cases c with
    | none => rfl
    | some v =>
        cases v with
        | str s => exact absurd rfl h
        | null => rfl
        | bool b => rfl
        | num n => rfl
        | arr l => rfl
        | obj fs => rfl

/-- Witness for C8: the five-option payload omits `visual_context` and yields
exactly the safe default; a recognized `mermaid` block with numeric content
coerces to the empty string; a JSON `null` block is falsy and defaults. -/
theorem visual_context_defaulting_witness :
    ({ question_en := "Which service?", visual_context := ⟨"none", ""⟩
      , options_en := ⟨"a", "b", "c", "d"⟩, correct_letter := "A"
      , explanation_pt := "pt" } : GeneratedQuestion).visual_context
        = normalizeVisualContext (jsProp fiveOptionsPayload "visual_context") ∧
      normalizeVisualContext
          (some (.obj [("type", .str "mermaid"), ("content", .num 3)]))
        = ⟨"mermaid", ""⟩ ∧
      normalizeVisualContext (some .null) = ⟨"none", ""⟩ ∧
      coerceContent (some (.num 3)) = "" :=
  ⟨visual_context_defaulting.1 fiveOptionsPayload _ rfl,
    visual_context_defaulting.2.2.2.2.1
      (some (.obj [("type", .str "mermaid"), ("content", .num 3)])) "mermaid" rfl,
    visual_context_defaulting.2.1 (some .null) rfl,
    visual_context_defaulting.2.2.2.2.2.2 (some (.num 3)) (by decide)⟩

end EdTechia
